import Mathlib

/-!
# Verification of `tfidf_text_executor.py`

Shallow embedding of the TF-IDF text encoder executor. The executor wraps a
pre-trained vectorizer loaded from disk; its `encode` request handler selects
documents via a traversal path, filters out documents without text, batches the
remaining documents, and writes the vectorizer's transform output back onto
each document's `embedding` field.

External collaborators are modelled abstractly, exactly as the code treats
them:
* the vectorizer is an opaque function `List String → List E` (the rows of the
  sparse matrix returned by `transform`);
* the filesystem plus `pickle.load` is an opaque partial map
  `String → Option (List String → List E)` from paths to deserialized
  vectorizers (`none` means `os.path.exists` is false);
* `DocumentArray.traverse_flat` is an opaque function
  `String → List Document → List Document` (the traversal-path query language
  is out of scope);
* in-place mutation of document objects through the aliases returned by
  `traverse_flat` is modelled by `writeBack`, which puts the updated selected
  documents back at their positions in the flat list.
-/

/-- A document: optional `text`, an `embedding` slot, and `other` standing for
every further field of the host runtime's document model (out of scope, but
needed to state frame conditions). -/
structure Document (E : Type) (O : Type) where
  text : Option String
  embedding : Option E
  other : O
deriving DecidableEq, Repr

/-- The executor's state after `__init__`: the three stored configuration
attributes plus the deserialized vectorizer, modelled as its opaque
`transform` function. -/
structure TFIDFTextEncoder (E : Type) where
  path_vectorizer : String
  default_batch_size : Nat
  default_traversal_path : String
  tfidf_vectorizer : List String → List E

/-- The error raised by the constructor when the vectorizer file is missing. -/
inductive ExecutorError where
  | PretrainedModelFileDoesNotExist : String → ExecutorError
deriving DecidableEq, Repr

/-- `TFIDFTextEncoder.__init__`: store the three parameters; if a file exists
at `path_vectorizer`, unpickle it into `tfidf_vectorizer`, otherwise raise
`PretrainedModelFileDoesNotExist`. `fs` models `os.path.exists` composed with
`pickle.load`: `fs path = some v` iff a file exists at `path` and deserializes
to `v`. -/
def TFIDFTextEncoder.init (E : Type) (fs : String → Option (List String → List E))
    (path_vectorizer : String) (default_batch_size : Nat)
    (default_traversal_path : String) :
    Except ExecutorError (TFIDFTextEncoder E) :=
  match fs path_vectorizer with
  | some v =>
      .ok { path_vectorizer := path_vectorizer,
            default_batch_size := default_batch_size,
            default_traversal_path := default_traversal_path,
            tfidf_vectorizer := v }
  | none =>
      .error (.PretrainedModelFileDoesNotExist
        (path_vectorizer ++ " not found, cannot find a fitted tfidf_vectorizer"))

/-- The slices `data[i : i + batch_size]` for `i = 0, batch_size, 2*batch_size, ...`,
i.e. the values yielded by `_batch_generator`. Requires `0 < batch_size` so
that the recursion terminates, mirroring Python's `range` rejecting step 0. -/
def batchSlices (batch_size : Nat) (h : 0 < batch_size) : List α → List (List α)
  | [] => []
  | a :: l =>
      ((a :: l).take batch_size) ::
        batchSlices batch_size h ((a :: l).drop batch_size)
termination_by l => l.length
decreasing_by
  simp only [List.length_drop, List.length_cons]
  omega

/-- `_batch_generator(data, batch_size)`: yields `data[i : i + batch_size]` for
`i in range(0, len(data), batch_size)`. Iterating it with `batch_size = 0`
raises `ValueError` (Python's `range` rejects a zero step), modelled as
`none`. -/
def _batch_generator (data : List α) (batch_size : Nat) :
    Option (List (List α)) :=
  if h : 0 < batch_size then some (batchSlices batch_size h data) else none

/-- The `parameters` dict of a request, restricted to the two keys the
executor reads; `none` models an absent key. -/
structure Params where
  batch_size : Option Nat
  traversal_path : Option String
deriving DecidableEq, Repr

/-- `parameters.get('traversal_path', self.default_traversal_path)`. -/
def effTraversalPath (e : TFIDFTextEncoder E) (parameters : Params) : String :=
  parameters.traversal_path.getD e.default_traversal_path

/-- `parameters.get('batch_size', self.default_batch_size)`. -/
def effBatchSize (e : TFIDFTextEncoder E) (parameters : Params) : Nat :=
  parameters.batch_size.getD e.default_batch_size

/-- `docs.traverse_flat(traversal_path)` with the opaque traversal function
`trav` supplied by the host runtime. -/
def flatDocs (e : TFIDFTextEncoder E)
    (trav : String → List (Document E O) → List (Document E O))
    (docs : List (Document E O)) (parameters : Params) : List (Document E O) :=
  trav (effTraversalPath e parameters) docs

/-- `[doc for doc in flat_docs if doc.text is not None]`. -/
def selectedDocs (e : TFIDFTextEncoder E)
    (trav : String → List (Document E O) → List (Document E O))
    (docs : List (Document E O)) (parameters : Params) : List (Document E O) :=
  (flatDocs e trav docs parameters).filter (fun d => d.text.isSome)

/-- `TFIDFTextEncoder._get_input_data_generator`: read the effective traversal
path and batch size, traverse, filter out documents without text, and batch
the result. -/
def _get_input_data_generator (e : TFIDFTextEncoder E)
    (trav : String → List (Document E O) → List (Document E O))
    (docs : List (Document E O)) (parameters : Params) :
    Option (List (List (Document E O))) :=
  _batch_generator (selectedDocs e trav docs parameters)
    (effBatchSize e parameters)

/-- `[d.text for d in document_batch]`. The pipeline only ever applies this to
filtered documents, whose `text` is `some _`; `getD` is the total rendering of
the field access. -/
def batchTexts (batch : List (Document E O)) : List String :=
  batch.map (fun d => d.text.getD "")

/-- `for doc, doc_embedding in zip(document_batch, embedding_matrix):
doc.embedding = doc_embedding` — `zip` stops at the shorter side, so documents
beyond the number of returned rows keep their previous embedding. -/
def writeEmbeddings : List (Document E O) → List E → List (Document E O)
  | [], _ => []
  | d :: ds, [] => d :: ds
  | d :: ds, v :: vs => { d with embedding := some v } :: writeEmbeddings ds vs

/-- One iteration of the loop in `_create_embeddings`: transform the batch's
texts and write the rows onto the batch's documents. -/
def encodeBatch (transform : List String → List E)
    (batch : List (Document E O)) : List (Document E O) :=
  writeEmbeddings batch (transform (batchTexts batch))

/-- `TFIDFTextEncoder._create_embeddings`, with the mutation made explicit:
the updated contents of each batch. -/
def _create_embeddings (transform : List String → List E)
    (batches : List (List (Document E O))) : List (List (Document E O)) :=
  batches.map (encodeBatch transform)

/-- In-place mutation through aliasing: the documents of `flat` that have
text are replaced, in order, by the documents of `updated` (the updated
selected documents); documents without text are untouched. -/
def writeBack : List (Document E O) → List (Document E O) → List (Document E O)
  | [], _ => []
  | d :: ds, [] => d :: ds
  | d :: ds, u :: us =>
      if d.text.isSome then u :: writeBack ds us
      else d :: writeBack ds (u :: us)

/-- `TFIDFTextEncoder.encode`: on a truthy `docs`, build the batch generator
and run `_create_embeddings` over it. The result is the executor (Python
mutates `self` never, the documents in place) and the flat document list after
mutation; `none` models an uncaught exception (the `ValueError` from a zero
batch size). -/
def TFIDFTextEncoder.encode (e : TFIDFTextEncoder E)
    (trav : String → List (Document E O) → List (Document E O))
    (docs : Option (List (Document E O))) (parameters : Params) :
    Option (TFIDFTextEncoder E × Option (List (Document E O))) :=
  match docs with
  | none => some (e, none)
  | some ds =>
      if ds.isEmpty then some (e, some ds)
      else
        match _get_input_data_generator e trav ds parameters with
        | none => none
        | some batches =>
            some (e, some (writeBack (flatDocs e trav ds parameters)
              ((_create_embeddings e.tfidf_vectorizer batches).flatten)))

/-- The list of arguments passed to `self.tfidf_vectorizer.transform` during a
call to `encode`, in call order: one `iterable_of_texts` per batch. Empty when
`docs` is falsy or the generator raises before yielding. -/
def transformCalls (e : TFIDFTextEncoder E)
    (trav : String → List (Document E O) → List (Document E O))
    (docs : Option (List (Document E O))) (parameters : Params) :
    List (List String) :=
  match docs with
  | none => []
  | some ds =>
      if ds.isEmpty then []
      else
        match _get_input_data_generator e trav ds parameters with
        | none => []
        | some batches => batches.map batchTexts

/-- The batches produced by `_get_input_data_generator`, defaulting to `[]`
when the generator would raise; under `0 < effBatchSize e parameters` it is
exactly the yielded list of batches. -/
def batchesOf (e : TFIDFTextEncoder E)
    (trav : String → List (Document E O) → List (Document E O))
    (docs : List (Document E O)) (parameters : Params) :
    List (List (Document E O)) :=
  (_get_input_data_generator e trav docs parameters).getD []

/-- Projection to the fields of a document other than `embedding`, used to
state frame conditions. -/
def docFrame (d : Document E O) : Option String × O :=
  (d.text, d.other)

/-! ## Lemmas about `writeEmbeddings` -/

theorem writeEmbeddings_length (ds : List (Document E O)) (vs : List E) :
    (writeEmbeddings ds vs).length = ds.length := by
  induction ds generalizing vs with
  | nil => simp [writeEmbeddings]
  | cons d ds ih =>
      cases vs with
      | nil => simp [writeEmbeddings]
      | cons v vs => simp [writeEmbeddings, ih]

theorem writeEmbeddings_getElem? (ds : List (Document E O)) (vs : List E)
    (i : Nat) (d : Document E O) (v : E)
    (hd : ds[i]? = some d) (hv : vs[i]? = some v) :
    (writeEmbeddings ds vs)[i]? = some { d with embedding := some v } := by
  induction ds generalizing vs i with
  | nil => simp at hd
  | cons a as ih =>
      cases vs with
      | nil => simp at hv
      | cons w ws =>
          cases i with
          | zero =>
              simp at hd hv
              subst hd; subst hv
              simp [writeEmbeddings]
          | succ i =>
              simp only [List.getElem?_cons_succ] at hd hv
              simpa [writeEmbeddings] using ih ws i hd hv

theorem writeEmbeddings_map_docFrame (ds : List (Document E O)) (vs : List E) :
    (writeEmbeddings ds vs).map docFrame = ds.map docFrame := by
  induction ds generalizing vs with
  | nil => simp [writeEmbeddings]
  | cons d ds ih =>
      cases vs with
      | nil => simp [writeEmbeddings]
      | cons v vs => simp [writeEmbeddings, docFrame, ih]

theorem writeEmbeddings_map (ds : List (Document E O)) (g : Document E O → E) :
    writeEmbeddings ds (ds.map g) =
      ds.map (fun d => { d with embedding := some (g d) }) := by
  induction ds with
  | nil => simp [writeEmbeddings]
  | cons d ds ih => simp [writeEmbeddings, ih]

/-! ## Lemmas about `batchSlices` and `_batch_generator` -/

theorem batchSlices_flatten (batch_size : Nat) (h : 0 < batch_size)
    (l : List α) : (batchSlices batch_size h l).flatten = l := by
  suffices H : ∀ n (l : List α), l.length ≤ n →
      (batchSlices batch_size h l).flatten = l from H l.length l le_rfl
  intro n
  induction n with
  | zero =>
      intro l hl
      rw [List.length_eq_zero.mp (Nat.le_zero.mp hl)]
      simp [batchSlices]
  | succ n ih =>
      intro l hl
      cases l with
      | nil => simp [batchSlices]
      | cons a t =>
          rw [batchSlices]
          simp only [List.flatten_cons]
          rw [ih ((a :: t).drop batch_size)
            (by simp only [List.length_drop, List.length_cons]
                simp only [List.length_cons] at hl
                omega)]
          exact List.take_append_drop batch_size (a :: t)

theorem length_le_of_mem_batchSlices (batch_size : Nat) (h : 0 < batch_size)
    (l : List α) (c : List α) (hc : c ∈ batchSlices batch_size h l) :
    c.length ≤ batch_size := by
  suffices H : ∀ n (l : List α), l.length ≤ n →
      ∀ c ∈ batchSlices batch_size h l, c.length ≤ batch_size from
    H l.length l le_rfl c hc
  intro n
  induction n with
  | zero =>
      intro l hl c hc
      rw [List.length_eq_zero.mp (Nat.le_zero.mp hl)] at hc
      simp [batchSlices] at hc
  | succ n ih =>
      intro l hl c hc
      cases l with
      | nil => simp [batchSlices] at hc
      | cons a t =>
          rw [batchSlices] at hc
          rcases List.mem_cons.mp hc with hc | hc
          · subst hc
            simp
          · exact ih ((a :: t).drop batch_size)
              (by simp only [List.length_drop, List.length_cons]
                  simp only [List.length_cons] at hl
                  omega) _ hc

theorem batchSlices_eq_nil (batch_size : Nat) (h : 0 < batch_size)
    (l : List α) : batchSlices batch_size h l = [] ↔ l = [] := by
  cases l with
  | nil => simp [batchSlices]
  | cons a t => rw [batchSlices]; simp

theorem length_eq_of_mem_dropLast_batchSlices (batch_size : Nat)
    (h : 0 < batch_size) (l : List α) (c : List α)
    (hc : c ∈ (batchSlices batch_size h l).dropLast) :
    c.length = batch_size := by
  suffices H : ∀ n (l : List α), l.length ≤ n →
      ∀ c ∈ (batchSlices batch_size h l).dropLast, c.length = batch_size from
    H l.length l le_rfl c hc
  intro n
  induction n with
  | zero =>
      intro l hl c hc
      rw [List.length_eq_zero.mp (Nat.le_zero.mp hl)] at hc
      simp [batchSlices] at hc
  | succ n ih =>
      intro l hl c hc
      cases l with
      | nil => simp [batchSlices] at hc
      | cons a t =>
          rw [batchSlices] at hc
          by_cases hrest : batchSlices batch_size h ((a :: t).drop batch_size) = []
          · rw [hrest] at hc
            simp at hc
          · rw [List.dropLast_cons_of_ne_nil hrest] at hc
            rcases List.mem_cons.mp hc with hc | hc
            · subst hc
              have hdrop : (a :: t).drop batch_size ≠ [] :=
                fun hnil => hrest (by rw [hnil]; simp [batchSlices])
              have hlt : batch_size < (a :: t).length := by
                by_contra hle
                exact hdrop (List.drop_eq_nil_of_le (by omega))
              simp only [List.length_take, List.length_cons]
              simp only [List.length_cons] at hlt
              omega
            · exact ih ((a :: t).drop batch_size)
                (by simp only [List.length_drop, List.length_cons]
                    simp only [List.length_cons] at hl
                    omega) _ hc

/-! ## Lemmas about `writeBack` -/

theorem writeBack_nil (flat : List (Document E O)) :
    writeBack flat [] = flat := by
  cases flat <;> rfl

theorem writeBack_cons_of_text_none (d : Document E O)
    (ds updated : List (Document E O)) (hd : d.text = none) :
    writeBack (d :: ds) updated = d :: writeBack ds updated := by
  cases updated with
  | nil => rw [writeBack_nil, writeBack_nil]
  | cons u us => simp [writeBack, hd]

theorem writeBack_filter (flat updated : List (Document E O))
    (hfr : updated.map docFrame =
      ((flat.filter (fun d => d.text.isSome)).map docFrame)) :
    (writeBack flat updated).filter (fun d => d.text.isSome) = updated := by
  induction flat generalizing updated with
  | nil =>
      simp only [List.filter_nil, List.map_nil] at hfr
      rw [List.map_eq_nil_iff] at hfr
      simp [writeBack, hfr]
  | cons d ds ih =>
      rcases hd : d.text.isSome with _ | _
      · have hdn : d.text = none := Option.not_isSome_iff_eq_none.mp (by simp [hd])
        rw [List.filter_cons, hd, if_neg (by simp)] at hfr
        rw [writeBack_cons_of_text_none d ds updated hdn]
        rw [List.filter_cons, hd, if_neg (by simp)]
        exact ih updated hfr
      · rw [List.filter_cons, hd, if_pos rfl] at hfr
        cases updated with
        | nil => simp at hfr
        | cons u us =>
            simp only [List.map_cons, List.cons.injEq] at hfr
            obtain ⟨hu, hus⟩ := hfr
            have hut : u.text = d.text := congrArg Prod.fst hu
            have hu' : u.text.isSome = true := by rw [hut]; exact hd
            simp only [writeBack, hd, if_true]
            rw [List.filter_cons, hu', if_pos rfl, ih us hus]

theorem writeBack_map_docFrame (flat updated : List (Document E O))
    (hfr : updated.map docFrame =
      ((flat.filter (fun d => d.text.isSome)).map docFrame)) :
    (writeBack flat updated).map docFrame = flat.map docFrame := by
  induction flat generalizing updated with
  | nil => simp [writeBack]
  | cons d ds ih =>
      rcases hd : d.text.isSome with _ | _
      · have hdn : d.text = none := Option.not_isSome_iff_eq_none.mp (by simp [hd])
        rw [List.filter_cons, hd, if_neg (by simp)] at hfr
        rw [writeBack_cons_of_text_none d ds updated hdn]
        simp only [List.map_cons]
        rw [ih updated hfr]
      · rw [List.filter_cons, hd, if_pos rfl] at hfr
        cases updated with
        | nil => simp at hfr
        | cons u us =>
            simp only [List.map_cons, List.cons.injEq] at hfr
            obtain ⟨hu, hus⟩ := hfr
            simp only [writeBack, hd, if_true, List.map_cons]
            rw [hu, ih us hus]

theorem writeBack_getElem?_of_text_none (flat updated : List (Document E O))
    (k : Nat) (d : Document E O) (hk : flat[k]? = some d)
    (hd : d.text = none) : (writeBack flat updated)[k]? = some d := by
  induction flat generalizing updated k with
  | nil => simp at hk
  | cons a as ih =>
      cases k with
      | zero =>
          simp only [List.getElem?_cons_zero, Option.some.injEq] at hk
          subst hk
          rw [writeBack_cons_of_text_none a as updated hd]
          simp
      | succ k =>
          simp only [List.getElem?_cons_succ] at hk
          by_cases ha : a.text.isSome
          · cases updated with
            | nil => rw [writeBack_nil]; simp [hk]
            | cons u us =>
                simp only [writeBack, ha, if_true, List.getElem?_cons_succ]
                exact ih us k hk
          · rw [writeBack_cons_of_text_none a as updated
              (Option.not_isSome_iff_eq_none.mp ha)]
            simp only [List.getElem?_cons_succ]
            exact ih updated k hk

theorem writeBack_filter_map (flat : List (Document E O))
    (u : Document E O → Document E O) :
    writeBack flat ((flat.filter (fun d => d.text.isSome)).map u) =
      flat.map (fun d => if d.text.isSome then u d else d) := by
  induction flat with
  | nil => simp [writeBack]
  | cons d ds ih =>
      rcases hd : d.text.isSome with _ | _
      · rw [List.filter_cons, hd, if_neg (by simp)]
        rw [writeBack_cons_of_text_none d ds _
          (Option.not_isSome_iff_eq_none.mp (by simp [hd]))]
        simp only [List.map_cons, hd, if_neg (by simp : ¬ (false = true))]
        rw [ih]
      · rw [List.filter_cons, hd, if_pos rfl]
        simp only [List.map_cons, writeBack, hd, if_true]
        rw [ih]

/-! ## Unfolding lemmas for the `encode` pipeline -/

theorem _get_input_data_generator_eq (e : TFIDFTextEncoder E)
    (trav : String → List (Document E O) → List (Document E O))
    (docs : List (Document E O)) (parameters : Params)
    (hbs : 0 < effBatchSize e parameters) :
    _get_input_data_generator e trav docs parameters =
      some (batchSlices (effBatchSize e parameters) hbs
        (selectedDocs e trav docs parameters)) := by
  simp only [_get_input_data_generator, _batch_generator]
  rw [dif_pos hbs]

theorem batchesOf_eq (e : TFIDFTextEncoder E)
    (trav : String → List (Document E O) → List (Document E O))
    (docs : List (Document E O)) (parameters : Params)
    (hbs : 0 < effBatchSize e parameters) :
    batchesOf e trav docs parameters =
      batchSlices (effBatchSize e parameters) hbs
        (selectedDocs e trav docs parameters) := by
  rw [batchesOf, _get_input_data_generator_eq e trav docs parameters hbs]
  rfl

theorem batchesOf_flatten (e : TFIDFTextEncoder E)
    (trav : String → List (Document E O) → List (Document E O))
    (docs : List (Document E O)) (parameters : Params)
    (hbs : 0 < effBatchSize e parameters) :
    (batchesOf e trav docs parameters).flatten =
      selectedDocs e trav docs parameters := by
  rw [batchesOf_eq e trav docs parameters hbs]
  exact batchSlices_flatten _ hbs _

theorem TFIDFTextEncoder.encode_eq (e : TFIDFTextEncoder E)
    (trav : String → List (Document E O) → List (Document E O))
    (docs : List (Document E O)) (parameters : Params)
    (hne : docs ≠ []) (hbs : 0 < effBatchSize e parameters) :
    e.encode trav (some docs) parameters =
      some (e, some (writeBack (flatDocs e trav docs parameters)
        ((_create_embeddings e.tfidf_vectorizer
          (batchesOf e trav docs parameters)).flatten))) := by
  have hemp : docs.isEmpty = false := by
    cases docs with
    | nil => exact absurd rfl hne
    | cons a l => rfl
  simp only [TFIDFTextEncoder.encode, hemp, Bool.false_eq_true, if_false,
    _get_input_data_generator_eq e trav docs parameters hbs,
    batchesOf_eq e trav docs parameters hbs]

theorem transformCalls_eq (e : TFIDFTextEncoder E)
    (trav : String → List (Document E O) → List (Document E O))
    (docs : List (Document E O)) (parameters : Params)
    (hne : docs ≠ []) (hbs : 0 < effBatchSize e parameters) :
    transformCalls e trav (some docs) parameters =
      (batchesOf e trav docs parameters).map batchTexts := by
  have hemp : docs.isEmpty = false := by
    cases docs with
    | nil => exact absurd rfl hne
    | cons a l => rfl
  simp only [transformCalls, hemp, Bool.false_eq_true, if_false,
    _get_input_data_generator_eq e trav docs parameters hbs,
    batchesOf_eq e trav docs parameters hbs]

theorem _create_embeddings_flatten_map_docFrame
    (transform : List String → List E)
    (batches : List (List (Document E O))) :
    ((_create_embeddings transform batches).flatten).map docFrame =
      batches.flatten.map docFrame := by
  induction batches with
  | nil => simp [_create_embeddings]
  | cons b bs ih =>
      simp only [_create_embeddings, List.map_cons, List.flatten_cons,
        List.map_append] at ih ⊢
      rw [ih]
      simp only [encodeBatch, writeEmbeddings_map_docFrame]

theorem encodeBatch_rowwise (transform : List String → List E)
    (f : String → E) (hf : ∀ ts, transform ts = ts.map f)
    (batch : List (Document E O)) :
    encodeBatch transform batch =
      batch.map (fun d => { d with embedding := some (f (d.text.getD "")) }) := by
  rw [encodeBatch, hf, batchTexts, List.map_map]
  exact writeEmbeddings_map batch _

theorem flatten_map_batchTexts (batches : List (List (Document E O))) :
    (batches.map batchTexts).flatten = batchTexts batches.flatten := by
  simp only [batchTexts, List.map_flatten]
  rfl

theorem _create_embeddings_flatten_rowwise (e : TFIDFTextEncoder E)
    (trav : String → List (Document E O) → List (Document E O))
    (docs : List (Document E O)) (parameters : Params) (f : String → E)
    (hf : ∀ ts, e.tfidf_vectorizer ts = ts.map f)
    (hbs : 0 < effBatchSize e parameters) :
    (_create_embeddings e.tfidf_vectorizer
        (batchesOf e trav docs parameters)).flatten =
      (selectedDocs e trav docs parameters).map
        (fun d => { d with embedding := some (f (d.text.getD "")) }) := by
  rw [_create_embeddings,
    List.map_congr_left
      (fun b _ => encodeBatch_rowwise e.tfidf_vectorizer f hf b),
    ← List.map_flatten, batchesOf_flatten e trav docs parameters hbs]

/-! ## The claims -/

/-- C9: for every list `data` and every `batch_size ≥ 1`,
`_batch_generator(data, batch_size)` yields consecutive slices whose
concatenation equals `data` in order, each of length at most `batch_size`, and
all but possibly the last of length exactly `batch_size`; iterating the
generator with `batch_size = 0` fails. -/
theorem C9_batch_generator_spec (data : List α) (batch_size : Nat)
    (hbs : 0 < batch_size) :
    (∃ chunks, _batch_generator data batch_size = some chunks ∧
      chunks.flatten = data ∧
      (∀ c ∈ chunks, c.length ≤ batch_size) ∧
      (∀ c ∈ chunks.dropLast, c.length = batch_size)) ∧
    _batch_generator data 0 = (none : Option (List (List α))) := by
  constructor
  · refine ⟨batchSlices batch_size hbs data, ?_,
      batchSlices_flatten batch_size hbs data,
      fun c hc => length_le_of_mem_batchSlices batch_size hbs data c hc,
      fun c hc => length_eq_of_mem_dropLast_batchSlices batch_size hbs data c hc⟩
    rw [_batch_generator, dif_pos hbs]
  · rw [_batch_generator, dif_neg (by omega)]

/-- C3: the constructor raises `PretrainedModelFileDoesNotExist` if and only
if no file exists at `path_vectorizer` (`fs path_vectorizer = none`); when the
file exists, the constructor succeeds and the executor's vectorizer is the
object deserialized from that file. The existence check is the only failure
check: the error case is exactly the missing-file case. -/
theorem C3_init_spec (E : Type) (fs : String → Option (List String → List E))
    (path_vectorizer : String) (default_batch_size : Nat)
    (default_traversal_path : String) :
    ((∃ err, TFIDFTextEncoder.init E fs path_vectorizer default_batch_size
        default_traversal_path = .error err) ↔ fs path_vectorizer = none) ∧
    (∀ v, fs path_vectorizer = some v →
      TFIDFTextEncoder.init E fs path_vectorizer default_batch_size
          default_traversal_path =
        .ok { path_vectorizer := path_vectorizer,
              default_batch_size := default_batch_size,
              default_traversal_path := default_traversal_path,
              tfidf_vectorizer := v }) := by
  constructor
  · cases h : fs path_vectorizer with
    | none => simp [TFIDFTextEncoder.init, h]
    | some v => simp [TFIDFTextEncoder.init, h]
  · intro v hv
    simp [TFIDFTextEncoder.init, hv]

/-- C6: the batch size and traversal path used by
`_get_input_data_generator` come from the request parameters when the keys
are present, and otherwise fall back to `default_batch_size` and
`default_traversal_path`; the generator is built from exactly those two
effective values. -/
theorem C6_parameters_override (e : TFIDFTextEncoder E)
    (trav : String → List (Document E O) → List (Document E O))
    (docs : List (Document E O)) (b : Nat) (s : String)
    (ob : Option Nat) (os : Option String) :
    effBatchSize e { batch_size := some b, traversal_path := os } = b ∧
    effBatchSize e { batch_size := none, traversal_path := os } =
      e.default_batch_size ∧
    effTraversalPath e { batch_size := ob, traversal_path := some s } = s ∧
    effTraversalPath e { batch_size := ob, traversal_path := none } =
      e.default_traversal_path ∧
    ∀ q : Params, _get_input_data_generator e trav docs q =
      _batch_generator
        ((trav (effTraversalPath e q) docs).filter (fun d => d.text.isSome))
        (effBatchSize e q) :=
  ⟨rfl, rfl, rfl, rfl, fun _ => rfl⟩

/-- C8: when `docs` is `None` or an empty collection, `encode` returns without
raising, leaves the executor and the documents unchanged, and never invokes
the vectorizer's transform. -/
theorem C8_falsy_docs_noop (e : TFIDFTextEncoder E)
    (trav : String → List (Document E O) → List (Document E O))
    (parameters : Params) :
    e.encode trav none parameters = some (e, none) ∧
    e.encode trav (some ([] : List (Document E O))) parameters =
      some (e, some []) ∧
    transformCalls e trav none parameters = [] ∧
    transformCalls e trav (some ([] : List (Document E O))) parameters = [] :=
  ⟨rfl, rfl, rfl, rfl⟩

/-- C5: `encode` writes only the `embedding` field: it does not raise, it
returns the executor state unchanged, and every traversed document keeps its
`text` and every field other than `embedding` (the `docFrame` projection),
pointwise in order. -/
theorem C5_frame (e : TFIDFTextEncoder E)
    (trav : String → List (Document E O) → List (Document E O))
    (docs : List (Document E O)) (parameters : Params)
    (hne : docs ≠ []) (hbs : 0 < effBatchSize e parameters) :
    ∃ out, e.encode trav (some docs) parameters = some (e, some out) ∧
      out.map docFrame = (flatDocs e trav docs parameters).map docFrame := by
  refine ⟨_, TFIDFTextEncoder.encode_eq e trav docs parameters hne hbs, ?_⟩
  apply writeBack_map_docFrame
  rw [_create_embeddings_flatten_map_docFrame,
    batchesOf_flatten e trav docs parameters hbs]
  rfl

/-- C2: every traversed document without text is skipped by `encode`: it is
left entirely unchanged at its position (in particular its `embedding` field),
it is not among the selected documents, and the texts handed to the
vectorizer's transform are exactly the selected documents' texts in order, so
a text-less document contributes to no batch. -/
theorem C2_skips_textless (e : TFIDFTextEncoder E)
    (trav : String → List (Document E O) → List (Document E O))
    (docs : List (Document E O)) (parameters : Params)
    (hne : docs ≠ []) (hbs : 0 < effBatchSize e parameters) :
    ∃ out : List (Document E O),
      e.encode trav (some docs) parameters = some (e, some out) ∧
      (transformCalls e trav (some docs) parameters).flatten =
        batchTexts (selectedDocs e trav docs parameters) ∧
      ∀ (k : Nat) (d : Document E O),
        (flatDocs e trav docs parameters)[k]? = some d → d.text = none →
        out[k]? = some d ∧ d ∉ selectedDocs e trav docs parameters := by
  refine ⟨_, TFIDFTextEncoder.encode_eq e trav docs parameters hne hbs,
    ?_, ?_⟩
  · rw [transformCalls_eq e trav docs parameters hne hbs,
      flatten_map_batchTexts, batchesOf_flatten e trav docs parameters hbs]
  · intro k d hk hd
    refine ⟨writeBack_getElem?_of_text_none _ _ k d hk hd, ?_⟩
    intro hmem
    have := (List.mem_filter.mp hmem).2
    rw [hd] at this
    simp at this

/-- C1: for a non-empty `docs`, `encode` succeeds and the selected documents
end up, in order, as the per-batch updated documents; within each batch the
texts handed to transform are the batch's documents' texts in order
(`batchTexts`), and the `i`-th document of a batch gets its embedding set to
the `i`-th row of transform applied to that batch's texts. -/
theorem C1_batch_embeddings (e : TFIDFTextEncoder E)
    (trav : String → List (Document E O) → List (Document E O))
    (docs : List (Document E O)) (parameters : Params)
    (hne : docs ≠ []) (hbs : 0 < effBatchSize e parameters) :
    ∃ out : List (Document E O),
      e.encode trav (some docs) parameters = some (e, some out) ∧
      out.filter (fun d => d.text.isSome) =
        (_create_embeddings e.tfidf_vectorizer
          (batchesOf e trav docs parameters)).flatten ∧
      transformCalls e trav (some docs) parameters =
        (batchesOf e trav docs parameters).map batchTexts ∧
      ∀ (j : Nat) (batch : List (Document E O)),
        (batchesOf e trav docs parameters)[j]? = some batch →
        (_create_embeddings e.tfidf_vectorizer
            (batchesOf e trav docs parameters))[j]? =
          some (encodeBatch e.tfidf_vectorizer batch) ∧
        ∀ (i : Nat) (d : Document E O) (r : E), batch[i]? = some d →
          (e.tfidf_vectorizer (batchTexts batch))[i]? = some r →
          (encodeBatch e.tfidf_vectorizer batch)[i]? =
            some { d with embedding := some r } := by
  refine ⟨_, TFIDFTextEncoder.encode_eq e trav docs parameters hne hbs,
    ?_, transformCalls_eq e trav docs parameters hne hbs, ?_⟩
  · apply writeBack_filter
    rw [_create_embeddings_flatten_map_docFrame,
      batchesOf_flatten e trav docs parameters hbs]
    rfl
  · intro j batch hj
    constructor
    · rw [_create_embeddings, List.getElem?_map, hj]
      rfl
    · intro i d r hi hr
      exact writeEmbeddings_getElem? batch _ i d r hi hr

/-- C4: batching does not change the result. Assuming the external transform
acts row-wise (`transform ts = ts.map f`), the documents produced by `encode`
with any effective batch size `≥ 1` equal the documents produced by
transforming all selected texts in one single batch. -/
theorem C4_batching_irrelevant (e : TFIDFTextEncoder E)
    (trav : String → List (Document E O) → List (Document E O))
    (docs : List (Document E O)) (parameters : Params) (f : String → E)
    (hf : ∀ ts, e.tfidf_vectorizer ts = ts.map f)
    (hne : docs ≠ []) (hbs : 0 < effBatchSize e parameters) :
    e.encode trav (some docs) parameters =
      some (e, some (writeBack (flatDocs e trav docs parameters)
        (encodeBatch e.tfidf_vectorizer
          (selectedDocs e trav docs parameters)))) := by
  rw [TFIDFTextEncoder.encode_eq e trav docs parameters hne hbs,
    _create_embeddings_flatten_rowwise e trav docs parameters f hf hbs,
    encodeBatch_rowwise e.tfidf_vectorizer f hf]

/-- C7: a document whose text is the empty string is not skipped: it passes
the `is not None` filter, appears in a batch, and (for a row-wise transform
`f`) receives the embedding `f ""` of the empty string. -/
theorem C7_empty_text_encoded (e : TFIDFTextEncoder E)
    (trav : String → List (Document E O) → List (Document E O))
    (docs : List (Document E O)) (parameters : Params) (f : String → E)
    (hf : ∀ ts, e.tfidf_vectorizer ts = ts.map f)
    (hne : docs ≠ []) (hbs : 0 < effBatchSize e parameters)
    (k : Nat) (d : Document E O)
    (hk : (flatDocs e trav docs parameters)[k]? = some d)
    (ht : d.text = some "") :
    d ∈ selectedDocs e trav docs parameters ∧
    d ∈ (batchesOf e trav docs parameters).flatten ∧
    ∃ out, e.encode trav (some docs) parameters = some (e, some out) ∧
      out[k]? = some { d with embedding := some (f "") } := by
  have hsel : d ∈ selectedDocs e trav docs parameters := by
    rw [selectedDocs, List.mem_filter]
    exact ⟨List.getElem?_mem hk, by rw [ht]; rfl⟩
  refine ⟨hsel, by rw [batchesOf_flatten e trav docs parameters hbs]; exact hsel,
    _, TFIDFTextEncoder.encode_eq e trav docs parameters hne hbs, ?_⟩
  rw [_create_embeddings_flatten_rowwise e trav docs parameters f hf hbs,
    selectedDocs, writeBack_filter_map, List.getElem?_map, hk]
  simp [ht]

/-! ## Concrete instances exercising the theorems -/

/-- Concrete vectorizer: each text's embedding is its length. -/
def demoTransform : List String → List Nat := fun ts => ts.map String.length

/-- Concrete filesystem: every path holds the demo vectorizer. -/
def demoFs : String → Option (List String → List Nat) :=
  fun _ => some demoTransform

/-- Concrete executor state. -/
def demoEncoder : TFIDFTextEncoder Nat :=
  { path_vectorizer := "model/tfidf_vectorizer.pickle",
    default_batch_size := 2048,
    default_traversal_path := "r",
    tfidf_vectorizer := demoTransform }

/-- Root traversal: the flat view of a root-level array is the array itself. -/
def demoTrav : String → List (Document Nat Nat) → List (Document Nat Nat) :=
  fun _ ds => ds

/-- Three documents: one with text, one without, one with empty text. -/
def demoDocs : List (Document Nat Nat) :=
  [{ text := some "ab", embedding := none, other := 0 },
   { text := none, embedding := none, other := 1 },
   { text := some "", embedding := none, other := 2 }]

/-- A request overriding the batch size. -/
def demoParams : Params := { batch_size := some 2, traversal_path := none }

/-- C9 at a concrete input. -/
theorem C9_batch_generator_spec_witness :
    (∃ chunks, _batch_generator [10, 20, 30] 2 = some chunks ∧
      chunks.flatten = [10, 20, 30] ∧
      (∀ c ∈ chunks, c.length ≤ 2) ∧
      (∀ c ∈ chunks.dropLast, c.length = 2)) ∧
    _batch_generator [10, 20, 30] 0 = (none : Option (List (List Nat))) :=
  C9_batch_generator_spec [10, 20, 30] 2 (by decide)

/-- C3 at a concrete input: the file exists, so construction succeeds with
the deserialized vectorizer. -/
theorem C3_init_spec_witness :
    TFIDFTextEncoder.init Nat demoFs "model/tfidf_vectorizer.pickle" 2048
        "r" =
      .ok { path_vectorizer := "model/tfidf_vectorizer.pickle",
            default_batch_size := 2048,
            default_traversal_path := "r",
            tfidf_vectorizer := demoTransform } :=
  (C3_init_spec Nat demoFs "model/tfidf_vectorizer.pickle" 2048 "r").2
    demoTransform rfl

/-- C5 at a concrete input. -/
theorem C5_frame_witness :
    ∃ out : List (Document Nat Nat),
      demoEncoder.encode demoTrav (some demoDocs) demoParams =
        some (demoEncoder, some out) ∧
      out.map docFrame =
        (flatDocs demoEncoder demoTrav demoDocs demoParams).map docFrame :=
  C5_frame demoEncoder demoTrav demoDocs demoParams (by decide) (by decide)

/-- C2 at a concrete input. -/
theorem C2_skips_textless_witness :
    ∃ out : List (Document Nat Nat),
      demoEncoder.encode demoTrav (some demoDocs) demoParams =
        some (demoEncoder, some out) ∧
      (transformCalls demoEncoder demoTrav (some demoDocs)
          demoParams).flatten =
        batchTexts (selectedDocs demoEncoder demoTrav demoDocs demoParams) ∧
      ∀ (k : Nat) (d : Document Nat Nat),
        (flatDocs demoEncoder demoTrav demoDocs demoParams)[k]? = some d →
        d.text = none →
        out[k]? = some d ∧
          d ∉ selectedDocs demoEncoder demoTrav demoDocs demoParams :=
  C2_skips_textless demoEncoder demoTrav demoDocs demoParams (by decide)
    (by decide)

/-- C1 at a concrete input. -/
theorem C1_batch_embeddings_witness :
    ∃ out : List (Document Nat Nat),
      demoEncoder.encode demoTrav (some demoDocs) demoParams =
        some (demoEncoder, some out) ∧
      out.filter (fun d => d.text.isSome) =
        (_create_embeddings demoEncoder.tfidf_vectorizer
          (batchesOf demoEncoder demoTrav demoDocs demoParams)).flatten ∧
      transformCalls demoEncoder demoTrav (some demoDocs) demoParams =
        (batchesOf demoEncoder demoTrav demoDocs demoParams).map batchTexts ∧
      ∀ (j : Nat) (batch : List (Document Nat Nat)),
        (batchesOf demoEncoder demoTrav demoDocs demoParams)[j]? =
          some batch →
        (_create_embeddings demoEncoder.tfidf_vectorizer
            (batchesOf demoEncoder demoTrav demoDocs demoParams))[j]? =
          some (encodeBatch demoEncoder.tfidf_vectorizer batch) ∧
        ∀ (i : Nat) (d : Document Nat Nat) (r : Nat), batch[i]? = some d →
          (demoEncoder.tfidf_vectorizer (batchTexts batch))[i]? = some r →
          (encodeBatch demoEncoder.tfidf_vectorizer batch)[i]? =
            some { d with embedding := some r } :=
  C1_batch_embeddings demoEncoder demoTrav demoDocs demoParams (by decide)
    (by decide)

/-- C4 at a concrete input. -/
theorem C4_batching_irrelevant_witness :
    demoEncoder.encode demoTrav (some demoDocs) demoParams =
      some (demoEncoder,
        some (writeBack (flatDocs demoEncoder demoTrav demoDocs demoParams)
          (encodeBatch demoEncoder.tfidf_vectorizer
            (selectedDocs demoEncoder demoTrav demoDocs demoParams)))) :=
  C4_batching_irrelevant demoEncoder demoTrav demoDocs demoParams
    String.length (fun t => rfl) (by decide) (by decide)

/-- C7 at a concrete input: the third demo document has empty text. -/
theorem C7_empty_text_encoded_witness :
    ({ text := some "", embedding := none, other := 2 } : Document Nat Nat) ∈
      selectedDocs demoEncoder demoTrav demoDocs demoParams ∧
    ({ text := some "", embedding := none, other := 2 } : Document Nat Nat) ∈
      (batchesOf demoEncoder demoTrav demoDocs demoParams).flatten ∧
    ∃ out : List (Document Nat Nat),
      demoEncoder.encode demoTrav (some demoDocs) demoParams =
        some (demoEncoder, some out) ∧
      out[2]? = some { ({ text := some "", embedding := none, other := 2 } :
          Document Nat Nat) with
        embedding := some (String.length "") } :=
  C7_empty_text_encoded demoEncoder demoTrav demoDocs demoParams
    String.length (fun t => rfl) (by decide) (by decide) 2
    { text := some "", embedding := none, other := 2 } rfl rfl
